import Mathlib

/-!
Shallow embedding of `src/pstream.c`: the packet-stream framing layer
(write engine `do_write`, read engine `do_read`, outbound queue, item
lifetime `item_free` / `pstream_free`, and the frame descriptor layout).

Modelling conventions:
* `size_t` subtraction is modular arithmetic modulo 2^64 (`subSizeT`);
  all other machine integers stay well inside their width on the states
  we consider, so they are plain `Nat` (descriptor fields are `u32`,
  encoded/decoded little-endian into bytes, matching the raw in-memory
  transfer of `p->write.descriptor` / `p->read.descriptor`).
* The byte channel is a parameter of each engine invocation: for a write,
  either the channel is not writable, or `iochannel_write` fails with a
  negative result, or the channel accepts up to `n` bytes (the call
  transfers `min span n`, never more than the requested span).  For a
  read, either not readable, a negative result, or the channel currently
  holds `bytes` (the call transfers `min span bytes.length`, consuming a
  prefix of `bytes`; an empty `bytes` is end-of-stream, read returns 0).
* Callbacks are modelled as registration flags plus an `Event` transcript
  emitted by each step, in invocation order.  Buffer reference drops are
  a `Release` transcript.
* `assert` is compiled out in release builds (NDEBUG); an `unref` of a
  field the constructors never initialised releases no tracked reference,
  so `item_free` returns an `Option Release`.  Struct fields that a
  constructor leaves uninitialised are `none` / defaulted, which is also
  what the asserts in the source are checking for.
* The read-side payload buffer is modelled by its allocated size
  (`ReadState.memblock` / `ReadState.packet`) plus the bytes received so
  far (`ReadState.rdata`); the C code overwrites the descriptor array and
  allocates a fresh buffer per frame, which we model by resetting
  `descBytes` / `rdata` when `read.index` is reset to 0.
-/

namespace PStream

/-- `PSTREAM_DESCRIPTOR_SIZE = PSTREAM_DESCRIPTOR_MAX * sizeof(uint32_t) = 12`. -/
def DESCRIPTOR_SIZE : Nat := 12

/-- `FRAME_SIZE_MAX = 1024*64`. -/
def FRAME_SIZE_MAX : Nat := 1024 * 64

/-- Modulus of `size_t` arithmetic. -/
def SIZE_T_MOD : Nat := 2 ^ 64

/-- `a - b` in `size_t` arithmetic (wrapping), for `a b < 2^64`. -/
def subSizeT (a b : Nat) : Nat := (SIZE_T_MOD + a - b) % SIZE_T_MOD

/-- Little-endian byte image of a `uint32_t` (host byte order of the raw
in-memory descriptor transfer; the protocol performs no normalization). -/
def u32le (x : Nat) : List Nat :=
  [x % 256, x / 2 ^ 8 % 256, x / 2 ^ 16 % 256, x / 2 ^ 24 % 256]

/-- Decode a `uint32_t` from (up to) four little-endian bytes. -/
def decode_u32 (b : List Nat) : Nat :=
  b.headD 0 + 2 ^ 8 * (b.drop 1).headD 0 + 2 ^ 16 * (b.drop 2).headD 0
    + 2 ^ 24 * (b.drop 3).headD 0

/-- Raw `uint32_t` bit image of an `int32_t` (two's complement). -/
def toU32 (d : Int) : Nat := (d % (2 ^ 32 : Int)).toNat

/-- Reinterpret a `uint32_t` bit image as `int32_t` (the
`(int32_t) p->read.descriptor[PSTREAM_DESCRIPTOR_DELTA]` cast). -/
def toI32 (n : Nat) : Int := if n < 2 ^ 31 then (n : Int) else (n : Int) - 2 ^ 32

/-- `descriptor[PSTREAM_DESCRIPTOR_LENGTH]` of an accumulated descriptor
byte buffer. -/
def descLength (b : List Nat) : Nat := decode_u32 (b.take 4)

/-- `descriptor[PSTREAM_DESCRIPTOR_CHANNEL]`. -/
def descChannel (b : List Nat) : Nat := decode_u32 ((b.drop 4).take 4)

/-- `descriptor[PSTREAM_DESCRIPTOR_DELTA]` (raw `u32` image). -/
def descDeltaU (b : List Nat) : Nat := decode_u32 ((b.drop 8).take 4)

/-- `struct packet`: an owned byte buffer (`id` identifies the buffer for
reference accounting; `packet->length = pdata.length`). -/
structure Packet where
  id : Nat
  pdata : List Nat
deriving DecidableEq, Repr

/-- `struct memblock`: a shareable refcounted byte buffer. -/
structure Memblock where
  id : Nat
  mdata : List Nat
deriving DecidableEq, Repr

/-- `struct memchunk`: a `(memblock, index, length)` view. -/
structure Memchunk where
  memblock : Memblock
  index : Nat
  length : Nat
deriving DecidableEq, Repr

/-- The tag of `struct item_info`. -/
inductive ItemType
  | packet
  | memblock
deriving DecidableEq, Repr

/-- `struct item_info`.  `chunk` and `packet` are `Option` because the two
constructors (`pstream_send_packet` / `pstream_send_memblock`) each set
only one of them and leave the other uninitialised. `delta` is the raw
`u32` image of the `int32_t` field. -/
structure ItemInfo where
  type : ItemType
  chunk : Option Memchunk
  channel : Nat
  delta : Nat
  packet : Option Packet
deriving DecidableEq, Repr

/-- One dropped buffer reference (`packet_unref` / `memblock_unref`).
The read-side buffer of a stream is identified positionally. -/
inductive Release
  | memblockUnref (id : Nat)
  | packetUnref (id : Nat)
  | readMemblockUnref
  | readPacketUnref
deriving DecidableEq, Repr

/-- `item_free` (lines 119-133).  The source dispatches on `i->type`:
for `PSTREAM_ITEM_PACKET` it asserts and unrefs `i->chunk.memblock`,
for `PSTREAM_ITEM_MEMBLOCK` it asserts and unrefs `i->packet` —
each branch touching the field the constructors leave uninitialised
for that type.  An unref of an uninitialised field releases no tracked
reference (`none`). -/
def item_free (i : ItemInfo) : Option Release :=
  match i.type with
  | ItemType.packet =>
    match i.chunk with
    | some c => some (Release.memblockUnref c.memblock.id)
    | none => none
  | ItemType.memblock =>
    match i.packet with
    | some pk => some (Release.packetUnref pk.id)
    | none => none

/-- The decoded form of `pstream_descriptor` (three `u32` fields). -/
structure Descriptor where
  length : Nat
  channel : Nat
  delta : Nat
deriving DecidableEq, Repr

/-- The 12 raw bytes of a descriptor as transmitted. -/
def descriptorBytes (d : Descriptor) : List Nat :=
  u32le d.length ++ u32le d.channel ++ u32le d.delta

/-- `p->write`: current item, encoded descriptor, payload view
(`p->write.data` onward), and cursor offset into the logical frame. -/
structure WriteState where
  current : Option ItemInfo
  descriptor : Descriptor
  wdata : List Nat
  index : Nat
deriving DecidableEq, Repr

/-- `p->read`: allocated buffer (by payload capacity), accumulated
descriptor bytes, payload bytes received so far, cursor offset. -/
structure ReadState where
  memblock : Option Nat
  packet : Option Nat
  descBytes : List Nat
  rdata : List Nat
  index : Nat
deriving DecidableEq, Repr

/-- `struct pstream`: every field the engines read or write, with each
callback pointer abstracted to a registration flag. -/
structure PstreamState where
  dead : Bool
  sourceEnabled : Bool
  sendQueue : List ItemInfo
  write : WriteState
  read : ReadState
  hasSendCallback : Bool
  hasRecievePacketCallback : Bool
  hasRecieveMemblockCallback : Bool
deriving DecidableEq, Repr

/-- A callback invocation, with the arguments the user observes.
`recieveMemblock` carries `(channel, delta, chunk.index, chunk.length)`
and the bytes of the delivered view. -/
inductive Event
  | sendCallback
  | recievePacket (pdata : List Nat)
  | recieveMemblock (channel : Nat) (delta : Int) (chunkIndex chunkLength : Nat)
      (viewBytes : List Nat)
deriving DecidableEq, Repr

def isSendCb : Event → Bool
  | Event.sendCallback => true
  | _ => false

/-- Result of one engine invocation: next state, bytes put on the wire,
callback transcript, dropped references. -/
structure StepOut where
  state : PstreamState
  out : List Nat
  events : List Event
  releases : List Release
deriving DecidableEq, Repr

/-- Channel behaviour for one `do_write` invocation. -/
inductive WriteIn
  | notWritable
  | werr
  | accept (n : Nat)
deriving DecidableEq, Repr

/-- Channel behaviour for one `do_read` invocation: `avail bytes` means
the channel currently holds `bytes`; `avail []` is end-of-stream. -/
inductive ReadIn
  | notReadable
  | rerr
  | avail (bytes : List Nat)
deriving DecidableEq, Repr

/-- `pstream_new`: fresh stream, idle, no callbacks registered. -/
def pstream_new : PstreamState where
  dead := false
  sourceEnabled := false
  sendQueue := []
  write := { current := none, descriptor := ⟨0, 0, 0⟩, wdata := [], index := 0 }
  read := { memblock := none, packet := none, descBytes := [], rdata := [], index := 0 }
  hasSendCallback := false
  hasRecievePacketCallback := false
  hasRecieveMemblockCallback := false

def pstream_set_send_callback (s : PstreamState) : PstreamState :=
  { s with hasSendCallback := true }

def pstream_set_recieve_packet_callback (s : PstreamState) : PstreamState :=
  { s with hasRecievePacketCallback := true }

def pstream_set_recieve_memblock_callback (s : PstreamState) : PstreamState :=
  { s with hasRecieveMemblockCallback := true }

/-- The item built by `pstream_send_packet`: only `type` and `packet` are
initialised. -/
def mkPacketItem (pk : Packet) : ItemInfo :=
  { type := ItemType.packet, chunk := none, channel := 0, delta := 0, packet := some pk }

/-- The item built by `pstream_send_memblock`: only `type`, `chunk`,
`channel`, `delta` are initialised. -/
def mkMemblockItem (channel : Nat) (delta : Int) (c : Memchunk) : ItemInfo :=
  { type := ItemType.memblock
    chunk := some c
    channel := channel
    delta := toU32 delta
    packet := none }

/-- `pstream_send_packet`: enqueue and arm the mainloop source. -/
def pstream_send_packet (s : PstreamState) (pk : Packet) : PstreamState :=
  { s with sendQueue := s.sendQueue ++ [mkPacketItem pk], sourceEnabled := true }

/-- `pstream_send_memblock` (precondition `channel ≠ 0`, asserted by the
source): enqueue and arm the mainloop source. -/
def pstream_send_memblock (s : PstreamState) (channel : Nat) (delta : Int)
    (c : Memchunk) : PstreamState :=
  { s with
    sendQueue := s.sendQueue ++ [mkMemblockItem channel delta c]
    sourceEnabled := true }

/-- `prepare_next_write_item`: pop the queue head (if any) into
`p->write`, encode its descriptor, point `data` at its payload, reset the
cursor.  For a packet item the descriptor is `(packet->length, 0, 0)`;
for a memblock item `(chunk.length, channel, delta)` with `data`
at `memblock->data + chunk.index`.  The `getD` defaults stand for the
field combinations the source rules out with `assert`. -/
def prepare_next_write_item (s : PstreamState) : PstreamState :=
  match s.sendQueue with
  | [] => s
  | i :: rest =>
    match i.type with
    | ItemType.packet =>
      let pd := (i.packet.map Packet.pdata).getD []
      { s with
        sendQueue := rest
        write := { current := some i
                   descriptor := ⟨pd.length, 0, 0⟩
                   wdata := pd
                   index := 0 } }
    | ItemType.memblock =>
      let c := i.chunk.getD ⟨⟨0, []⟩, 0, 0⟩
      { s with
        sendQueue := rest
        write := { current := some i
                   descriptor := ⟨c.length, i.channel, i.delta⟩
                   wdata := c.memblock.mdata.drop c.index
                   index := 0 } }

/-- The span `l` requested from `iochannel_write` (do_write lines
245-251).  Header region: `PSTREAM_DESCRIPTOR_SIZE - index`.  Otherwise
the source computes `descriptor[LENGTH] - index - PSTREAM_DESCRIPTOR_SIZE`
in `size_t` arithmetic, i.e. `(length - index) - 12` wrapping. -/
def writeSpanLen (w : WriteState) : Nat :=
  if w.index < DESCRIPTOR_SIZE then DESCRIPTOR_SIZE - w.index
  else subSizeT (subSizeT w.descriptor.length w.index) DESCRIPTOR_SIZE

/-- The span `l` requested from `iochannel_read` (do_read lines 281-288),
same arithmetic as `writeSpanLen`. -/
def readSpanLen (r : ReadState) : Nat :=
  if r.index < DESCRIPTOR_SIZE then DESCRIPTOR_SIZE - r.index
  else subSizeT (subSizeT (descLength r.descBytes) r.index) DESCRIPTOR_SIZE

/-- The span as the specification states it: remaining header bytes while
the offset is within the header, otherwise the remaining payload bytes
`length - (offset - header_size)`.  Stated from the spec's words, for
comparison with `writeSpanLen` / `readSpanLen`. -/
def spanSpec (offset length : Nat) : Nat :=
  if offset < DESCRIPTOR_SIZE then DESCRIPTOR_SIZE - offset
  else length - (offset - DESCRIPTOR_SIZE)

/-- The bytes a write of `r` bytes takes from the current frame: from the
encoded descriptor at `index`, or from the payload at
`index - PSTREAM_DESCRIPTOR_SIZE`. -/
def writeSourceBytes (w : WriteState) (r : Nat) : List Nat :=
  if w.index < DESCRIPTOR_SIZE then
    ((descriptorBytes w.descriptor).drop w.index).take r
  else
    (w.wdata.drop (w.index - DESCRIPTOR_SIZE)).take r

/-- Lines 258-267 of `do_write`: the cursor has advanced by `r`; if it
reached `PSTREAM_DESCRIPTOR_SIZE + descriptor[LENGTH]`, free the current
item, clear it, and — when a send callback is registered and the queue
is empty — invoke it. -/
def writeFinish (s1 : PstreamState) (cur : ItemInfo) (r : Nat) : StepOut :=
  let out := writeSourceBytes s1.write r
  let w2 := { s1.write with index := s1.write.index + r }
  if DESCRIPTOR_SIZE + s1.write.descriptor.length ≤ w2.index then
    let s2 := { s1 with write := { w2 with current := none } }
    if s2.hasSendCallback && s2.sendQueue.isEmpty then
      ⟨s2, out, [Event.sendCallback], (item_free cur).toList⟩
    else
      ⟨s2, out, [], (item_free cur).toList⟩
  else
    ⟨{ s1 with write := w2 }, out, [], []⟩

/-- `do_write` (lines 226-268): disarm the mainloop source; return if dead
or the channel is not writable; pop a new item if none is current; return
if still none; request one write of the computed span; a negative result
marks the stream dead; otherwise advance by the transferred count
(`writeFinish`). -/
def do_write (s0 : PstreamState) (io : WriteIn) : StepOut :=
  let s := { s0 with sourceEnabled := false }
  if s.dead then ⟨s, [], [], []⟩
  else
    match io with
    | WriteIn.notWritable => ⟨s, [], [], []⟩
    | WriteIn.werr =>
      let s1 := if s.write.current.isNone then prepare_next_write_item s else s
      if s1.write.current.isNone then ⟨s1, [], [], []⟩
      else ⟨{ s1 with dead := true }, [], [], []⟩
    | WriteIn.accept n =>
      let s1 := if s.write.current.isNone then prepare_next_write_item s else s
      match s1.write.current with
      | none => ⟨s1, [], [], []⟩
      | some cur => writeFinish s1 cur (min (writeSpanLen s1.write) n)

/-- Lines 281-295 of `do_read`: the buffer/cursor update for one read
that transferred the `r` bytes `got` into the region the cursor
indicates. -/
def readAdvance (rs : ReadState) (r : Nat) (got : List Nat) : ReadState :=
  if rs.index < DESCRIPTOR_SIZE then
    { rs with descBytes := rs.descBytes ++ got, index := rs.index + r }
  else
    { rs with rdata := rs.rdata ++ got, index := rs.index + r }

/-- Lines 297-318 of `do_read`: the cursor landed exactly on
`PSTREAM_DESCRIPTOR_SIZE`; validate `descriptor[LENGTH]` against
`FRAME_SIZE_MAX` (too large: dead, nothing allocated) and otherwise
allocate a packet (`channel == 0`) or a memblock (`channel != 0`). -/
def readDescriptorComplete (s : PstreamState) (rd : ReadState) : StepOut :=
  if FRAME_SIZE_MAX < descLength rd.descBytes then
    ⟨{ s with dead := true, read := rd }, [], [], []⟩
  else if descChannel rd.descBytes = 0 then
    ⟨{ s with read :=
        { rd with packet := some (descLength rd.descBytes), rdata := [] } },
      [], [], []⟩
  else
    ⟨{ s with read :=
        { rd with memblock := some (descLength rd.descBytes), rdata := [] } },
      [], [], []⟩

/-- Lines 323-337 of `do_read`: incremental memblock delivery.  When a
memblock is current and a receive-memblock callback is registered,
deliver the sub-span of this read's bytes that falls within the payload:
`l = index - r < PSTREAM_DESCRIPTOR_SIZE ? index - PSTREAM_DESCRIPTOR_SIZE
: r`, as the chunk view `(memblock, index - PSTREAM_DESCRIPTOR_SIZE - l,
l)`, if `l > 0`. -/
def deliveryEvents (s : PstreamState) (rd : ReadState) (r : Nat) : List Event :=
  if rd.memblock.isSome && s.hasRecieveMemblockCallback then
    let l2 := if rd.index - r < DESCRIPTOR_SIZE then rd.index - DESCRIPTOR_SIZE else r
    if 0 < l2 then
      [Event.recieveMemblock (descChannel rd.descBytes)
        (toI32 (descDeltaU rd.descBytes))
        (rd.index - DESCRIPTOR_SIZE - l2) l2
        ((rd.rdata.drop (rd.index - DESCRIPTOR_SIZE - l2)).take l2)]
    else []
  else []

/-- Lines 320-357 of `do_read`: the cursor is past the header — deliver
the incremental memblock sub-span, then on frame completion
(`index >= descriptor[LENGTH] + PSTREAM_DESCRIPTOR_SIZE`) unref the
memblock, or invoke the receive-packet callback and unref the packet,
and reset the cursor to 0. -/
def readPayload (s : PstreamState) (rd : ReadState) (r : Nat) : StepOut :=
  let evs := deliveryEvents s rd r
  if descLength rd.descBytes + DESCRIPTOR_SIZE ≤ rd.index then
    if rd.memblock.isSome then
      ⟨{ s with read :=
          { rd with memblock := none, descBytes := [], rdata := [], index := 0 } },
        [], evs, [Release.readMemblockUnref]⟩
    else
      ⟨{ s with read :=
          { rd with packet := none, descBytes := [], rdata := [], index := 0 } },
        [],
        (if s.hasRecievePacketCallback then evs ++ [Event.recievePacket rd.rdata]
         else evs),
        [Release.readPacketUnref]⟩
  else
    ⟨{ s with read := rd }, [], evs, []⟩

/-- `do_read` (lines 270-359): disarm the mainloop source; return if dead
or not readable; request one read of the computed span; a result `≤ 0`
marks the stream dead; otherwise advance the cursor (`readAdvance`) and
dispatch on where it landed (`readDescriptorComplete` / `readPayload`). -/
def do_read (s0 : PstreamState) (io : ReadIn) : StepOut :=
  let s := { s0 with sourceEnabled := false }
  if s.dead then ⟨s, [], [], []⟩
  else
    match io with
    | ReadIn.notReadable => ⟨s, [], [], []⟩
    | ReadIn.rerr => ⟨{ s with dead := true }, [], [], []⟩
    | ReadIn.avail bytes =>
      let r := min (readSpanLen s.read) bytes.length
      if r = 0 then ⟨{ s with dead := true }, [], [], []⟩
      else
        let rd := readAdvance s.read r (bytes.take r)
        if rd.index = DESCRIPTOR_SIZE then readDescriptorComplete s rd
        else if DESCRIPTOR_SIZE < rd.index then readPayload s rd r
        else ⟨{ s with read := rd }, [], [], []⟩

/-- `pstream_free` (lines 135-152): the references dropped when the
stream is destroyed — every queued item via `item_free`, the in-progress
write item via `item_free`, then any in-progress read memblock or
packet. -/
def pstream_free_releases (s : PstreamState) : List Release :=
  s.sendQueue.filterMap item_free
    ++ (match s.write.current with
        | some i => (item_free i).toList
        | none => [])
    ++ (if s.read.memblock.isSome then [Release.readMemblockUnref] else [])
    ++ (if s.read.packet.isSome then [Release.readPacketUnref] else [])

/-- One external stimulus: a write wake-up, a read wake-up, or an API
send call. -/
inductive Invocation
  | w (io : WriteIn)
  | r (io : ReadIn)
  | sendP (pk : Packet)
  | sendM (channel : Nat) (delta : Int) (c : Memchunk)
deriving DecidableEq, Repr

def runStep (s : PstreamState) (a : Invocation) : StepOut :=
  match a with
  | Invocation.w io => do_write s io
  | Invocation.r io => do_read s io
  | Invocation.sendP pk => ⟨pstream_send_packet s pk, [], [], []⟩
  | Invocation.sendM ch d c => ⟨pstream_send_memblock s ch d c, [], [], []⟩

/-- Drive a stream through a sequence of stimuli, collecting the bytes
written to the channel and the callback transcript. -/
def run : PstreamState → List Invocation → PstreamState × List Nat × List Event
  | s, [] => (s, [], [])
  | s, a :: rest =>
    let o := runStep s a
    let t := run o.state rest
    (t.1, o.out ++ t.2.1, o.events ++ t.2.2)

/-! ### Helper lemmas -/

theorem prepare_sourceEnabled (s : PstreamState) :
    (prepare_next_write_item s).sourceEnabled = s.sourceEnabled := by
  unfold prepare_next_write_item
  cases hq : s.sendQueue with
  | nil => rfl
  | cons i rest =>
    obtain ⟨ty, ck, chn, dl, pkt⟩ := i
    cases ty <;> rfl

theorem prepare_dead (s : PstreamState) :
    (prepare_next_write_item s).dead = s.dead := by
  unfold prepare_next_write_item
  cases hq : s.sendQueue with
  | nil => rfl
  | cons i rest =>
    obtain ⟨ty, ck, chn, dl, pkt⟩ := i
    cases ty <;> rfl

theorem prepare_hasSendCallback (s : PstreamState) :
    (prepare_next_write_item s).hasSendCallback = s.hasSendCallback := by
  unfold prepare_next_write_item
  cases hq : s.sendQueue with
  | nil => rfl
  | cons i rest =>
    obtain ⟨ty, ck, chn, dl, pkt⟩ := i
    cases ty <;> rfl

theorem do_write_dead (s : PstreamState) (io : WriteIn) (h : s.dead = true) :
    do_write s io = ⟨{ s with sourceEnabled := false }, [], [], []⟩ := by
  unfold do_write
  simp [h]

theorem do_read_dead (s : PstreamState) (io : ReadIn) (h : s.dead = true) :
    do_read s io = ⟨{ s with sourceEnabled := false }, [], [], []⟩ := by
  unfold do_read
  simp [h]

theorem runStep_dead (s : PstreamState) (a : Invocation) (h : s.dead = true) :
    (runStep s a).state.dead = true ∧ (runStep s a).out = []
      ∧ (runStep s a).events = [] := by
  cases a with
  | w io =>
    rw [runStep, do_write_dead s io h]
    exact ⟨h, rfl, rfl⟩
  | r io =>
    rw [runStep, do_read_dead s io h]
    exact ⟨h, rfl, rfl⟩
  | sendP pk => exact ⟨h, rfl, rfl⟩
  | sendM ch d c => exact ⟨h, rfl, rfl⟩

theorem run_dead (s : PstreamState) (acts : List Invocation) (h : s.dead = true) :
    (run s acts).2.1 = [] ∧ (run s acts).2.2 = [] := by
  induction acts generalizing s with
  | nil => exact ⟨rfl, rfl⟩
  | cons a rest ih =>
    have hs := runStep_dead s a h
    have hr := ih (runStep s a).state hs.1
    rw [run]
    simp [hs.2.1, hs.2.2, hr.1, hr.2]

theorem writeFinish_source (s1 : PstreamState) (cur : ItemInfo) (r : Nat) :
    (writeFinish s1 cur r).state.sourceEnabled = s1.sourceEnabled := by
  simp only [writeFinish]
  split
  · split <;> rfl
  · rfl

theorem do_write_source_disabled (s : PstreamState) (io : WriteIn) :
    (do_write s io).state.sourceEnabled = false := by
  obtain ⟨dead, se, q, w, re, h1, h2, h3⟩ := s
  cases dead with
  | true => rfl
  | false =>
    cases io with
    | notWritable => rfl
    | werr =>
      obtain ⟨cur, dsc, wd, idx⟩ := w
      cases cur with
      | some i => rfl
      | none =>
        cases q with
        | nil => rfl
        | cons i rest =>
          obtain ⟨ty, ck, chn, dl, pkt⟩ := i
          cases ty <;> rfl
    | accept n =>
      obtain ⟨cur, dsc, wd, idx⟩ := w
      cases cur with
      | some i =>
        exact writeFinish_source _ _ _
      | none =>
        cases q with
        | nil => rfl
        | cons i rest =>
          obtain ⟨ty, ck, chn, dl, pkt⟩ := i
          cases ty <;> exact writeFinish_source _ _ _

theorem readDescriptorComplete_source (s : PstreamState) (rd : ReadState) :
    (readDescriptorComplete s rd).state.sourceEnabled = s.sourceEnabled := by
  unfold readDescriptorComplete
  split
  · rfl
  · split <;> rfl

theorem readPayload_source (s : PstreamState) (rd : ReadState) (r : Nat) :
    (readPayload s rd r).state.sourceEnabled = s.sourceEnabled := by
  unfold readPayload
  split
  · split <;> rfl
  · rfl

theorem do_read_source_disabled (s : PstreamState) (io : ReadIn) :
    (do_read s io).state.sourceEnabled = false := by
  obtain ⟨dead, se, q, w, re, h1, h2, h3⟩ := s
  cases dead with
  | true => rfl
  | false =>
    cases io with
    | notReadable => rfl
    | rerr => rfl
    | avail bytes =>
      simp only [do_read]
      split
      · rfl
      · split
        · rfl
        · split
          · rw [readDescriptorComplete_source]
          · split
            · rw [readPayload_source]
            · rfl

/-! ### Claim fixtures -/

/-- A 24-byte packet: the smallest packet frame on which the write span
slip is a clean stall (at offset 12 the requested span is `24-12-12 = 0`). -/
def pk24 : Packet := ⟨1, List.replicate 24 7⟩

/-- A fresh stream with `pk24` enqueued by `pstream_send_packet`. -/
def c2start : PstreamState := pstream_send_packet pstream_new pk24

/-- A wire image of one memblock frame: descriptor `(24, channel 1,
delta 0)` followed by its 24 payload bytes. -/
def c3wire : List Nat := descriptorBytes ⟨24, 1, 0⟩ ++ List.replicate 24 5

/-- A fresh stream with a receive-memblock callback registered. -/
def c3start : PstreamState := pstream_set_recieve_memblock_callback pstream_new

/-- The descriptor bytes accumulated once a header read completes:
`p->read.descriptor` after `p->read.index` reaches
`PSTREAM_DESCRIPTOR_SIZE` in one call that transfers the remaining
header bytes. -/
def completedDescBytes (s : PstreamState) (bytes : List Nat) : List Nat :=
  s.read.descBytes ++ bytes.take (DESCRIPTOR_SIZE - s.read.index)

/-! ### Claims -/

/-- C1: the spec says the payload-region span is
`length - (offset - header_size)` and that repeated transfers bring the
offset to exactly `header_size + length`.  The source instead computes
`length - offset - header_size` (`(length - offset) - header_size` in
`size_t` arithmetic) on both engines: at offset 12 of a 100-byte frame it
requests 76 bytes instead of 100, and at offset 88 it requests 0 bytes,
so the offset can never reach 112.  Code bug: the completion test
`index >= PSTREAM_DESCRIPTOR_SIZE + length` and the cursor arithmetic
`data + index - PSTREAM_DESCRIPTOR_SIZE` in the same functions are
consistent only with the spec's span. -/
theorem c1_span_slip :
    writeSpanLen ⟨none, ⟨100, 0, 0⟩, [], 12⟩ = 76 ∧
    readSpanLen ⟨some 100, none, descriptorBytes ⟨100, 1, 0⟩, [], 12⟩ = 76 ∧
    spanSpec 12 100 = 100 ∧
    writeSpanLen ⟨none, ⟨100, 0, 0⟩, [], 88⟩ = 0 ∧
    spanSpec 88 100 = 24 := by
  decide

/-- C2: the spec's round-trip/FIFO property fails on the source: with a
single 24-byte packet enqueued and a channel that accepts everything
offered, 50 write-engine invocations transmit only the 12 descriptor
bytes; the cursor is stuck at offset 12 (where the slipped span is 0),
the item is never completed, so the payload and every later frame are
never transmitted and the receiving side can never observe the enqueued
sequence. -/
theorem c2_round_trip_stalls :
    (run c2start (List.replicate 50 (Invocation.w (WriteIn.accept 1000)))).2.1
        = descriptorBytes ⟨24, 0, 0⟩ ∧
    (run c2start (List.replicate 50 (Invocation.w (WriteIn.accept 1000)))).1.write.index
        = 12 ∧
    (run c2start (List.replicate 50 (Invocation.w (WriteIn.accept 1000)))).1.write.current
        = some (mkPacketItem pk24) ∧
    (run c2start (List.replicate 50 (Invocation.w (WriteIn.accept 1000)))).1.dead
        = false ∧
    writeSpanLen ⟨some (mkPacketItem pk24), ⟨24, 0, 0⟩, List.replicate 24 7, 12⟩
        = 0 := by
  decide

/-- C3: the spec's incremental-delivery completeness fails on the source:
for a memblock frame of payload length 24 with a receive-memblock
callback registered, after the header completes the slipped read span is
`24-12-12 = 0`, the next `iochannel_read` returns 0 and the stream is
marked dead — the callback is never invoked, so the concatenation of
delivered chunk views is empty, not the 24 payload bytes. -/
theorem c3_incremental_delivery_lost :
    (run c3start [Invocation.r (ReadIn.avail c3wire),
        Invocation.r (ReadIn.avail (List.replicate 24 5))]).2.2 = [] ∧
    (run c3start [Invocation.r (ReadIn.avail c3wire),
        Invocation.r (ReadIn.avail (List.replicate 24 5))]).1.dead = true ∧
    (run c3start [Invocation.r (ReadIn.avail c3wire),
        Invocation.r (ReadIn.avail (List.replicate 24 5))]).1.read.memblock
        = some 24 ∧
    readSpanLen ⟨some 24, none, descriptorBytes ⟨24, 1, 0⟩, [], 12⟩ = 0 := by
  decide

/-- C5: the claim that freeing a Packet item releases exactly one
reference to its packet (and a Memblock item one reference to its
chunk's memblock) fails: `item_free`'s branches are swapped — the
`PSTREAM_ITEM_PACKET` branch asserts and unrefs `i->chunk.memblock` and
the `PSTREAM_ITEM_MEMBLOCK` branch asserts and unrefs `i->packet`, the
very fields `pstream_send_packet` / `pstream_send_memblock` leave
uninitialised.  Neither kind of item ever releases its owned reference,
and destroying a stream with two unsent queued items releases zero
references instead of two. -/
theorem c5_item_free_swapped :
    item_free (mkPacketItem ⟨7, [1, 2, 3]⟩) = none ∧
    item_free (mkMemblockItem 2 (-5) ⟨⟨9, List.replicate 8 0⟩, 0, 8⟩) = none ∧
    pstream_free_releases
      (pstream_send_packet
        (pstream_send_memblock pstream_new 2 (-5) ⟨⟨9, List.replicate 8 0⟩, 0, 8⟩)
        ⟨7, [1, 2, 3]⟩) = [] := by
  decide

/-- C7 counterexample: with a 30-byte packet enqueued and a channel that
accepts 5 bytes, `do_write` returns with the item partially transmitted
(offset 5 of 42) and the queue's work unfinished, yet the mainloop
source is left disabled — refuting the claim that the scheduler hook is
left armed whenever outbound work remains. -/
theorem c7_counterexample :
    ((do_write (pstream_send_packet pstream_new ⟨3, List.replicate 30 1⟩)
        (WriteIn.accept 5)).state.write.current).isSome = true ∧
    (do_write (pstream_send_packet pstream_new ⟨3, List.replicate 30 1⟩)
        (WriteIn.accept 5)).state.write.index = 5 ∧
    (do_write (pstream_send_packet pstream_new ⟨3, List.replicate 30 1⟩)
        (WriteIn.accept 5)).state.sourceEnabled = false := by
  decide

/-- C7 (amended): `do_write` disables the mainloop source on entry (line
232) and never re-arms it, so it always returns with the scheduler hook
disarmed, whatever outbound work remains; `do_read` does the same; the
hook is armed only when `pstream_send_packet` or `pstream_send_memblock`
enqueue an item. -/
theorem c7_hook_disarmed_on_return (s : PstreamState) (io : WriteIn)
    (rio : ReadIn) (pk : Packet) (ch : Nat) (d : Int) (c : Memchunk) :
    (do_write s io).state.sourceEnabled = false ∧
    (do_read s rio).state.sourceEnabled = false ∧
    (pstream_send_packet s pk).sourceEnabled = true ∧
    (pstream_send_memblock s ch d c).sourceEnabled = true :=
  ⟨do_write_source_disabled s io, do_read_source_disabled s rio, rfl, rfl⟩

theorem writeFinish_state (s1 : PstreamState) (cur : ItemInfo) (r : Nat) :
    (writeFinish s1 cur r).state.dead = s1.dead ∧
    (writeFinish s1 cur r).state.write.index = s1.write.index + r ∧
    (writeFinish s1 cur r).state.sendQueue = s1.sendQueue := by
  simp only [writeFinish]
  split
  · split <;> exact ⟨rfl, rfl, rfl⟩
  · exact ⟨rfl, rfl, rfl⟩

theorem readAdvance_index (rs : ReadState) (r : Nat) (got : List Nat) :
    (readAdvance rs r got).index = rs.index + r := by
  unfold readAdvance
  split <;> rfl

theorem readDescriptorComplete_index (s : PstreamState) (rd : ReadState) :
    (readDescriptorComplete s rd).state.read.index = rd.index := by
  simp only [readDescriptorComplete]
  split
  · rfl
  · split <;> rfl

theorem readPayload_index (s : PstreamState) (rd : ReadState) (r : Nat) :
    (readPayload s rd r).state.read.index = 0 ∨
    (readPayload s rd r).state.read.index = rd.index := by
  simp only [readPayload]
  split
  · split
    · exact Or.inl rfl
    · exact Or.inl rfl
  · exact Or.inr rfl

/-- C9: once the stream is dead, a write-engine invocation and a
read-engine invocation return the state unchanged (but for the mainloop
source being disarmed): the queue, write cursor and read cursor are
untouched, no bytes are put on the wire, no callback fires, no reference
is dropped; and any sequence of stimuli — including further sends — from
a dead state produces no wire bytes and no callback events, so frames
sent after death are never transmitted and no receive callback ever
fires again. -/
theorem c9_dead_is_noop (s : PstreamState) (io : WriteIn) (rio : ReadIn)
    (acts : List Invocation) (hdead : s.dead = true) :
    do_write s io = ⟨{ s with sourceEnabled := false }, [], [], []⟩ ∧
    do_read s rio = ⟨{ s with sourceEnabled := false }, [], [], []⟩ ∧
    (run s acts).2.1 = [] ∧ (run s acts).2.2 = [] :=
  ⟨do_write_dead s io hdead, do_read_dead s rio hdead,
    (run_dead s acts hdead).1, (run_dead s acts hdead).2⟩

/-- A dead stream with an item queued and a partially read frame. -/
def c9deadState : PstreamState :=
  { pstream_set_recieve_packet_callback (pstream_send_packet pstream_new ⟨5, [1, 2]⟩) with
    dead := true
    read := { memblock := none, packet := none, descBytes := [3, 0], rdata := [], index := 2 } }

/-- Stimuli thrown at the dead stream: write wake-ups, a read wake-up
with pending bytes, and a fresh send. -/
def c9acts : List Invocation :=
  [Invocation.w (WriteIn.accept 9), Invocation.sendP ⟨6, [4]⟩,
    Invocation.r (ReadIn.avail [7, 8, 9]), Invocation.w (WriteIn.accept 9)]

theorem c9_dead_is_noop_witness :
    c9deadState.dead = true ∧
    (do_write c9deadState (WriteIn.accept 9)
        = ⟨{ c9deadState with sourceEnabled := false }, [], [], []⟩ ∧
      do_read c9deadState (ReadIn.avail [7, 8])
        = ⟨{ c9deadState with sourceEnabled := false }, [], [], []⟩ ∧
      (run c9deadState c9acts).2.1 = [] ∧ (run c9deadState c9acts).2.2 = []) :=
  ⟨rfl, c9_dead_is_noop c9deadState (WriteIn.accept 9) (ReadIn.avail [7, 8]) c9acts rfl⟩

/-- C8: error classification is asymmetric.  Write side (with a current
item so the I/O attempt is reached): a negative `iochannel_write` result
marks the stream dead with the cursor untouched, while a result of 0 or
more bytes leaves the stream alive and advances the cursor by exactly
the transferred amount (`min span n`), the engine doing no further I/O
in the invocation.  Read side: a result of 0 (clean peer shutdown or an
empty span, `min span |bytes| = 0`) or a negative result marks the
stream dead with the cursor untouched; a strictly positive result
advances the cursor by the transferred amount (or completes the frame
and resets the cursor to 0). -/
theorem c8_error_asymmetry (s : PstreamState) (i : ItemInfo) (n : Nat)
    (bytes : List Nat) (hdead : s.dead = false)
    (hcur : s.write.current = some i) :
    ((do_write s WriteIn.werr).state.dead = true ∧
      (do_write s WriteIn.werr).state.write.index = s.write.index) ∧
    ((do_write s (WriteIn.accept n)).state.dead = false ∧
      (do_write s (WriteIn.accept n)).state.write.index
        = s.write.index + min (writeSpanLen s.write) n) ∧
    ((do_read s ReadIn.rerr).state.dead = true ∧
      (do_read s ReadIn.rerr).state.read.index = s.read.index) ∧
    (min (readSpanLen s.read) bytes.length = 0 →
      (do_read s (ReadIn.avail bytes)).state.dead = true ∧
      (do_read s (ReadIn.avail bytes)).state.read.index = s.read.index) ∧
    (0 < min (readSpanLen s.read) bytes.length →
      (do_read s (ReadIn.avail bytes)).state.read.index
          = s.read.index + min (readSpanLen s.read) bytes.length ∨
      (do_read s (ReadIn.avail bytes)).state.read.index = 0) := by
  have hnone : s.write.current.isNone = false := by rw [hcur]; rfl
  refine ⟨?_, ?_, ?_, ?_, ?_⟩
  · simp [do_write, hdead, hnone]
  · have hw := writeFinish_state { s with sourceEnabled := false } i
      (min (writeSpanLen s.write) n)
    have heq : do_write s (WriteIn.accept n)
        = writeFinish { s with sourceEnabled := false } i
            (min (writeSpanLen s.write) n) := by
      simp [do_write, hdead, hnone, hcur]
    rw [heq]
    exact ⟨hw.1.trans hdead, hw.2.1⟩
  · simp [do_read, hdead]
  · intro hz
    simp [do_read, hdead, hz]
  · intro hp
    have hz : ¬ (min (readSpanLen s.read) bytes.length = 0) := Nat.pos_iff_ne_zero.mp hp
    simp only [do_read, hdead, Bool.false_eq_true, if_false, hz]
    split
    · rw [readDescriptorComplete_index, readAdvance_index]
      exact Or.inl rfl
    · split
      · rcases readPayload_index { s with dead := false, sourceEnabled := false }
          (readAdvance s.read (min (readSpanLen s.read) bytes.length)
            (bytes.take (min (readSpanLen s.read) bytes.length)))
          (min (readSpanLen s.read) bytes.length) with h0 | hsame
        · exact Or.inr h0
        · rw [hsame, readAdvance_index]
          exact Or.inl rfl
      · rw [readAdvance_index]
        exact Or.inl rfl

/-- A live stream mid-frame on both engines: current write item at offset
3, read cursor at offset 2 of the header. -/
def c8state : PstreamState :=
  { pstream_new with
    write := ⟨some (mkPacketItem ⟨2, [1, 2, 3, 4]⟩), ⟨4, 0, 0⟩, [1, 2, 3, 4], 3⟩
    read := ⟨none, none, [9, 9], [], 2⟩ }

theorem c8_error_asymmetry_witness :
    (c8state.dead = false ∧ c8state.write.current = some (mkPacketItem ⟨2, [1, 2, 3, 4]⟩)) ∧
    (((do_write c8state WriteIn.werr).state.dead = true ∧
        (do_write c8state WriteIn.werr).state.write.index = c8state.write.index) ∧
      ((do_write c8state (WriteIn.accept 5)).state.dead = false ∧
        (do_write c8state (WriteIn.accept 5)).state.write.index
          = c8state.write.index + min (writeSpanLen c8state.write) 5) ∧
      ((do_read c8state ReadIn.rerr).state.dead = true ∧
        (do_read c8state ReadIn.rerr).state.read.index = c8state.read.index) ∧
      (min (readSpanLen c8state.read) (([] : List Nat).length) = 0 →
        (do_read c8state (ReadIn.avail ([] : List Nat))).state.dead = true ∧
        (do_read c8state (ReadIn.avail ([] : List Nat))).state.read.index = c8state.read.index) ∧
      (0 < min (readSpanLen c8state.read) (([] : List Nat).length) →
        (do_read c8state (ReadIn.avail ([] : List Nat))).state.read.index
            = c8state.read.index + min (readSpanLen c8state.read) (([] : List Nat).length) ∨
        (do_read c8state (ReadIn.avail ([] : List Nat))).state.read.index = 0)) :=
  ⟨⟨rfl, rfl⟩, c8_error_asymmetry c8state (mkPacketItem ⟨2, [1, 2, 3, 4]⟩) 5 ([] : List Nat) rfl rfl⟩

theorem readDescriptorComplete_events (s : PstreamState) (rd : ReadState) :
    (readDescriptorComplete s rd).events = [] := by
  simp only [readDescriptorComplete]
  split
  · rfl
  · split <;> rfl

theorem readPayload_mem_memblock (s : PstreamState) (rd : ReadState) (r : Nat)
    (ch : Nat) (dl : Int) (ci cl : Nat) (vb : List Nat)
    (h : Event.recieveMemblock ch dl ci cl vb ∈ (readPayload s rd r).events) :
    Event.recieveMemblock ch dl ci cl vb ∈ deliveryEvents s rd r := by
  simp only [readPayload] at h
  split at h
  · split at h
    · exact h
    · split at h
      · rcases List.mem_append.mp h with h1 | h2
        · exact h1
        · simp at h2
      · exact h
  · exact h

theorem deliveryEvents_mem (s : PstreamState) (rd : ReadState) (r : Nat)
    (ch : Nat) (dl : Int) (ci cl : Nat) (vb : List Nat)
    (h : Event.recieveMemblock ch dl ci cl vb ∈ deliveryEvents s rd r) :
    0 < cl ∧
    cl = (if rd.index - r < DESCRIPTOR_SIZE then rd.index - DESCRIPTOR_SIZE else r) ∧
    ci = rd.index - DESCRIPTOR_SIZE - cl := by
  simp only [deliveryEvents] at h
  split at h
  · split at h
    case isTrue hlt =>
      split at h
      · have he := List.mem_singleton.mp h
        injection he with e1 e2 e3 e4 e5
        subst e3
        subst e4
        exact ⟨by assumption, by rw [if_pos hlt], rfl⟩
      · simp at h
    case isFalse hge =>
      split at h
      · have he := List.mem_singleton.mp h
        injection he with e1 e2 e3 e4 e5
        subst e3
        subst e4
        exact ⟨by assumption, by rw [if_neg hge], rfl⟩
      · simp at h
  · simp at h

/-- C10: a single read never straddles the header/payload boundary — a
header-region read leaves the cursor at or below `PSTREAM_DESCRIPTOR_SIZE`
— and consequently every incremental memblock delivery happens from a
pre-read offset already at or past the header: the delivered chunk length
always equals the byte count `r = min span |bytes|` of the read call
(i.e. the `index - r < PSTREAM_DESCRIPTOR_SIZE` arm of the span ternary
on line 326 is never the one taken), and the chunk starts at the
pre-read payload position `offset - PSTREAM_DESCRIPTOR_SIZE`. -/
theorem c10_no_boundary_straddle (s : PstreamState) (bytes : List Nat)
    (ch : Nat) (dl : Int) (ci cl : Nat) (vb : List Nat)
    (hmem : Event.recieveMemblock ch dl ci cl vb
      ∈ (do_read s (ReadIn.avail bytes)).events) :
    DESCRIPTOR_SIZE ≤ s.read.index ∧
    cl = min (readSpanLen s.read) bytes.length ∧
    ci = s.read.index - DESCRIPTOR_SIZE ∧
    (s.read.index < DESCRIPTOR_SIZE →
      (do_read s (ReadIn.avail bytes)).state.read.index ≤ DESCRIPTOR_SIZE) := by
  simp only [do_read] at hmem
  split at hmem
  · simp at hmem
  · split at hmem
    · simp at hmem
    · split at hmem
      · rw [readDescriptorComplete_events] at hmem
        simp at hmem
      · split at hmem
        · have h2 := readPayload_mem_memblock _ _ _ _ _ _ _ _ hmem
          have h3 := deliveryEvents_mem _ _ _ _ _ _ _ _ h2
          have hidx : (readAdvance s.read (min (readSpanLen s.read) bytes.length)
              (bytes.take (min (readSpanLen s.read) bytes.length))).index
              = s.read.index + min (readSpanLen s.read) bytes.length :=
            readAdvance_index _ _ _
          have hge : DESCRIPTOR_SIZE ≤ s.read.index := by
            by_contra hlt
            push_neg at hlt
            have hspan : readSpanLen s.read = DESCRIPTOR_SIZE - s.read.index := by
              unfold readSpanLen
              rw [if_pos hlt]
            have hrle : min (readSpanLen s.read) bytes.length
                ≤ DESCRIPTOR_SIZE - s.read.index := by
              rw [hspan]
              exact Nat.min_le_left _ _
            have : (readAdvance s.read (min (readSpanLen s.read) bytes.length)
                (bytes.take (min (readSpanLen s.read) bytes.length))).index
                ≤ DESCRIPTOR_SIZE := by
              rw [hidx]
              omega
            omega
          have hcl : cl = min (readSpanLen s.read) bytes.length := by
            rcases h3 with ⟨hpos, hcl0, hci0⟩
            rw [hcl0, hidx, if_neg]
            omega
          refine ⟨hge, hcl, ?_, ?_⟩
          · rcases h3 with ⟨hpos, hcl0, hci0⟩
            rw [hci0, hidx, hcl]
            omega
          · intro hlt
            omega
        · simp at hmem

/-- The read state after the header completes, with descriptor `d` and
a stream whose receive callbacks are registered. -/
def c10state : PstreamState :=
  { pstream_set_recieve_memblock_callback pstream_new with
    read := ⟨some 4, none, descriptorBytes ⟨4, 1, 0⟩, [], 12⟩ }

theorem c10_no_boundary_straddle_witness :
    (Event.recieveMemblock 1 0 0 2 [9, 9]
      ∈ (do_read c10state (ReadIn.avail [9, 9])).events) ∧
    (DESCRIPTOR_SIZE ≤ c10state.read.index ∧
      2 = min (readSpanLen c10state.read) ([9, 9] : List Nat).length ∧
      0 = c10state.read.index - DESCRIPTOR_SIZE ∧
      (c10state.read.index < DESCRIPTOR_SIZE →
        (do_read c10state (ReadIn.avail [9, 9])).state.read.index
          ≤ DESCRIPTOR_SIZE)) :=
  ⟨by decide, c10_no_boundary_straddle c10state [9, 9] 1 0 0 2 [9, 9] (by decide)⟩


/-- C4: when a read completes the frame descriptor (the cursor lands
exactly on `PSTREAM_DESCRIPTOR_SIZE`), a decoded length above
`FRAME_SIZE_MAX = 65536` marks the stream dead before any payload buffer
is allocated and before any callback fires; a length at most 65536 is
accepted and allocates exactly one buffer — a packet when `channel == 0`,
a memblock when `channel != 0`. -/
theorem c4_descriptor_validation (s : PstreamState) (bytes : List Nat)
    (hdead : s.dead = false) (hidx : s.read.index < DESCRIPTOR_SIZE)
    (hlen : DESCRIPTOR_SIZE - s.read.index ≤ bytes.length)
    (hpk : s.read.packet = none) (hmb : s.read.memblock = none) :
    (FRAME_SIZE_MAX < descLength (completedDescBytes s bytes) →
      (do_read s (ReadIn.avail bytes)).state.dead = true ∧
      (do_read s (ReadIn.avail bytes)).state.read.packet = none ∧
      (do_read s (ReadIn.avail bytes)).state.read.memblock = none ∧
      (do_read s (ReadIn.avail bytes)).events = []) ∧
    (descLength (completedDescBytes s bytes) ≤ FRAME_SIZE_MAX →
      (do_read s (ReadIn.avail bytes)).state.dead = false ∧
      (do_read s (ReadIn.avail bytes)).events = [] ∧
      (descChannel (completedDescBytes s bytes) = 0 →
        (do_read s (ReadIn.avail bytes)).state.read.packet
            = some (descLength (completedDescBytes s bytes)) ∧
        (do_read s (ReadIn.avail bytes)).state.read.memblock = none) ∧
      (descChannel (completedDescBytes s bytes) ≠ 0 →
        (do_read s (ReadIn.avail bytes)).state.read.memblock
            = some (descLength (completedDescBytes s bytes)) ∧
        (do_read s (ReadIn.avail bytes)).state.read.packet = none)) := by
  have hspan : readSpanLen s.read = DESCRIPTOR_SIZE - s.read.index := by
    unfold readSpanLen
    rw [if_pos hidx]
  have hr : min (readSpanLen s.read) bytes.length = DESCRIPTOR_SIZE - s.read.index := by
    rw [hspan]
    exact Nat.min_eq_left hlen
  have hrnz : ¬ (min (readSpanLen s.read) bytes.length = 0) := by
    rw [hr]
    omega
  have hadd : s.read.index + (DESCRIPTOR_SIZE - s.read.index) = DESCRIPTOR_SIZE := by
    omega
  have hadv : readAdvance s.read (min (readSpanLen s.read) bytes.length)
      (bytes.take (min (readSpanLen s.read) bytes.length))
      = { s.read with descBytes := completedDescBytes s bytes, index := DESCRIPTOR_SIZE } := by
    unfold readAdvance completedDescBytes
    rw [if_pos hidx, hr, hadd]
  have heq : do_read s (ReadIn.avail bytes)
      = readDescriptorComplete { s with sourceEnabled := false }
          { s.read with descBytes := completedDescBytes s bytes, index := DESCRIPTOR_SIZE } := by
    simp [do_read, hdead, hrnz, hadv]
  rw [heq]
  simp only [readDescriptorComplete]
  constructor
  · intro hbig
    rw [if_pos hbig]
    exact ⟨rfl, hpk, hmb, rfl⟩
  · intro hsmall
    rw [if_neg (by omega : ¬ FRAME_SIZE_MAX < descLength (completedDescBytes s bytes))]
    refine ⟨?_, ?_, ?_, ?_⟩
    · split <;> exact hdead
    · split <;> rfl
    · intro hch
      rw [if_pos hch]
      exact ⟨rfl, hmb⟩
    · intro hch
      rw [if_neg hch]
      exact ⟨rfl, hpk⟩

/-- A fresh stream with both receive callbacks registered. -/
def c4state : PstreamState :=
  pstream_set_recieve_packet_callback (pstream_set_recieve_memblock_callback pstream_new)

/-- A wire descriptor claiming a 70000-byte packet frame (over the
65536-byte cap). -/
def c4bytes : List Nat := descriptorBytes ⟨70000, 0, 0⟩

theorem c4_descriptor_validation_witness :
    (c4state.dead = false ∧ c4state.read.index < DESCRIPTOR_SIZE ∧
      DESCRIPTOR_SIZE - c4state.read.index ≤ c4bytes.length ∧
      c4state.read.packet = none ∧ c4state.read.memblock = none) ∧
    ((FRAME_SIZE_MAX < descLength (completedDescBytes c4state c4bytes) →
        (do_read c4state (ReadIn.avail c4bytes)).state.dead = true ∧
        (do_read c4state (ReadIn.avail c4bytes)).state.read.packet = none ∧
        (do_read c4state (ReadIn.avail c4bytes)).state.read.memblock = none ∧
        (do_read c4state (ReadIn.avail c4bytes)).events = []) ∧
      (descLength (completedDescBytes c4state c4bytes) ≤ FRAME_SIZE_MAX →
        (do_read c4state (ReadIn.avail c4bytes)).state.dead = false ∧
        (do_read c4state (ReadIn.avail c4bytes)).events = [] ∧
        (descChannel (completedDescBytes c4state c4bytes) = 0 →
          (do_read c4state (ReadIn.avail c4bytes)).state.read.packet
              = some (descLength (completedDescBytes c4state c4bytes)) ∧
          (do_read c4state (ReadIn.avail c4bytes)).state.read.memblock = none) ∧
        (descChannel (completedDescBytes c4state c4bytes) ≠ 0 →
          (do_read c4state (ReadIn.avail c4bytes)).state.read.memblock
              = some (descLength (completedDescBytes c4state c4bytes)) ∧
          (do_read c4state (ReadIn.avail c4bytes)).state.read.packet = none))) :=
  ⟨⟨rfl, by decide, by decide, rfl, rfl⟩,
    c4_descriptor_validation c4state c4bytes rfl (by decide) (by decide) rfl rfl⟩



theorem prepare_pops (s : PstreamState) (i : ItemInfo) (rest : List ItemInfo)
    (hq : s.sendQueue = i :: rest) :
    (prepare_next_write_item s).write.current = some i ∧
    (prepare_next_write_item s).sendQueue = rest ∧
    (prepare_next_write_item s).dead = s.dead ∧
    (prepare_next_write_item s).hasSendCallback = s.hasSendCallback := by
  unfold prepare_next_write_item
  rw [hq]
  obtain ⟨ty, ck, chn, dl, pkt⟩ := i
  cases ty <;> exact ⟨rfl, rfl, rfl, rfl⟩

theorem writeFinish_callback (s1 : PstreamState) (cur : ItemInfo) (r : Nat)
    (hdead : s1.dead = false) (hcur : s1.write.current = some cur) :
    ((writeFinish s1 cur r).events.filter isSendCb).length =
      if s1.hasSendCallback = true ∧ (writeFinish s1 cur r).state.dead = false ∧
          (writeFinish s1 cur r).state.write.current = none ∧
          (writeFinish s1 cur r).state.sendQueue = [] then 1 else 0 := by
  simp only [writeFinish]
  split
  · split
    case isTrue hg =>
      rw [Bool.and_eq_true] at hg
      have hq : s1.sendQueue = [] := by
        have h2 := hg.2
        rwa [List.isEmpty_iff] at h2
      rw [if_pos ⟨hg.1, hdead, rfl, hq⟩]
      rfl
    case isFalse hg =>
      rw [if_neg]
      · rfl
      · rintro ⟨hcb, hdd, hcn, hqe⟩
        exact hg (by rw [Bool.and_eq_true, List.isEmpty_iff]; exact ⟨hcb, hqe⟩)
  · rw [if_neg]
    · rfl
    · rintro ⟨hcb, hdd, hcn, hqe⟩
      have hcn2 : s1.write.current = none := hcn
      rw [hcur] at hcn2
      simp at hcn2

/-- C6: in every write-engine invocation, the send-completion callback
fires exactly once precisely when the engine finishes the last byte of a
current item and no item remains queued (a callback being registered):
i.e. exactly at each transition of the outbound work from non-empty to
empty — characterised observably as: the stream is not dead afterwards,
there was outbound work before the call (a current item or a non-empty
queue), there is no current item afterwards, and the queue is empty
afterwards.  In particular it never fires while further items remain
queued, and not once per completed item. -/
theorem c6_send_callback_on_drain (s : PstreamState) (io : WriteIn) :
    ((do_write s io).events.filter isSendCb).length =
      if s.hasSendCallback = true ∧ (do_write s io).state.dead = false ∧
          (do_write s io).state.write.current = none ∧
          (s.write.current.isSome = true ∨ s.sendQueue ≠ []) ∧
          (do_write s io).state.sendQueue = [] then 1 else 0 := by
  by_cases hd : s.dead = true
  · rw [do_write_dead s io hd]
    rw [if_neg]
    · rfl
    · rintro ⟨_, hdd, _, _, _⟩
      have hdd2 : s.dead = false := hdd
      rw [hd] at hdd2
      simp at hdd2
  · have hd' : s.dead = false := by
      revert hd
      cases s.dead <;> simp
    cases io with
    | notWritable =>
      have heq : do_write s WriteIn.notWritable
          = ⟨{ s with sourceEnabled := false }, [], [], []⟩ := by
        simp [do_write, hd']
      rw [heq]
      rw [if_neg]
      · rfl
      · rintro ⟨hcb, hdd, hcn, hw, hqe⟩
        have hcn2 : s.write.current = none := hcn
        have hqe2 : s.sendQueue = [] := hqe
        rcases hw with hw | hw
        · rw [hcn2] at hw
          simp at hw
        · exact hw hqe2
    | werr =>
      by_cases hc : s.write.current.isNone = true
      · have hcn : s.write.current = none := Option.isNone_iff_eq_none.mp hc
        rcases hq : s.sendQueue with _ | ⟨i, rest⟩
        · have heq : do_write s WriteIn.werr
              = ⟨{ s with sourceEnabled := false }, [], [], []⟩ := by
            simp [do_write, hd', hc, prepare_next_write_item, hq]
          rw [heq]
          rw [if_neg]
          · rfl
          · rintro ⟨_, _, _, hw, _⟩
            rcases hw with hw | hw
            · rw [hcn] at hw
              simp at hw
            · exact hw rfl
        · obtain ⟨hp1, hp2, hp3, hp4⟩ :=
            prepare_pops
              { s with dead := false, sourceEnabled := false, sendQueue := i :: rest }
              i rest rfl
          have heq : (do_write s WriteIn.werr).state.dead = true ∧
              (do_write s WriteIn.werr).events = [] := by
            constructor <;> simp [do_write, hd', hc, hq, hp1]
          rcases heq with ⟨hdd, hev⟩
          rw [hev]
          rw [if_neg]
          · rfl
          · rintro ⟨_, hdd2, _, _, _⟩
            rw [hdd] at hdd2
            simp at hdd2
      · have hc' : s.write.current.isNone = false := by
          revert hc
          cases s.write.current.isNone <;> simp
        have heq : (do_write s WriteIn.werr).state.dead = true ∧
            (do_write s WriteIn.werr).events = [] := by
          constructor <;> simp [do_write, hd', hc']
        rcases heq with ⟨hdd, hev⟩
        rw [hev]
        rw [if_neg]
        · rfl
        · rintro ⟨_, hdd2, _, _, _⟩
          rw [hdd] at hdd2
          simp at hdd2
    | accept n =>
      by_cases hc : s.write.current.isNone = true
      · have hcn : s.write.current = none := Option.isNone_iff_eq_none.mp hc
        rcases hq : s.sendQueue with _ | ⟨i, rest⟩
        · have heq : do_write s (WriteIn.accept n)
              = ⟨{ s with sourceEnabled := false }, [], [], []⟩ := by
            simp [do_write, hd', hc, hcn, prepare_next_write_item, hq]
          rw [heq]
          rw [if_neg]
          · rfl
          · rintro ⟨_, _, _, hw, _⟩
            rcases hw with hw | hw
            · rw [hcn] at hw
              simp at hw
            · exact hw rfl
        · obtain ⟨hp1, hp2, hp3, hp4⟩ :=
            prepare_pops
              { s with dead := false, sourceEnabled := false, sendQueue := i :: rest }
              i rest rfl
          have heq : do_write s (WriteIn.accept n)
              = writeFinish
                  (prepare_next_write_item
                    { s with dead := false, sourceEnabled := false, sendQueue := i :: rest })
                  i
                  (min
                    (writeSpanLen
                      (prepare_next_write_item
                        { s with dead := false, sourceEnabled := false, sendQueue := i :: rest }).write)
                    n) := by
            simp [do_write, hd', hc, hcn, hq, hp1]
          rw [heq]
          rw [writeFinish_callback _ i _ hp3 hp1]
          refine if_congr ?_ rfl rfl
          constructor
          · rintro ⟨a1, a2, a3, a4⟩
            exact ⟨hp4.symm.trans a1, a2, a3, Or.inr (by simp), a4⟩
          · rintro ⟨b1, b2, b3, _, b5⟩
            exact ⟨hp4.trans b1, b2, b3, b5⟩
      · have hc' : s.write.current.isNone = false := by
          revert hc
          cases s.write.current.isNone <;> simp
        rcases ho : s.write.current with _ | j
        · rw [ho] at hc'
          simp at hc'
        · have heq : do_write s (WriteIn.accept n)
              = writeFinish { s with dead := false, sourceEnabled := false } j
                  (min (writeSpanLen s.write) n) := by
            simp [do_write, hd', hc', ho]
          rw [heq]
          rw [writeFinish_callback { s with dead := false, sourceEnabled := false } j
            (min (writeSpanLen s.write) n) rfl ho]
          refine if_congr ?_ rfl rfl
          constructor
          · rintro ⟨a1, a2, a3, a4⟩
            exact ⟨a1, a2, a3, Or.inl rfl, a4⟩
          · rintro ⟨b1, b2, b3, _, b5⟩
            exact ⟨b1, b2, b3, b5⟩


end PStream
